import Mathlib

/-!
Shallow embedding of the `@typek/clap` command-line argument parser:
the tokenizer (`parseArguments`), the flag query engine (`has` / `get`),
the command-tree validator (`validateCommandOptions`), the subcommand
matcher (`matchSubcommand`) and the resolution entry point (`handle`),
together with theorems checking the specification's statements about them.
-/

set_option autoImplicit false

namespace Clap

/-- `src/args.ts`, `ParsedArgument`: a script argument parsed according to
Unix conventions.  As in the source, the `short` payload keeps the whole
raw string including its leading dash (e.g. `-aBc`), and `long` keeps the
leading double dash (e.g. `--flag`). -/
inductive ParsedArgument where
  | text (value : String)
  | long (name : String) (argument : Option String)
  | short (value : String)
  | endOfOptions
  deriving DecidableEq, Repr

/-- JavaScript `s.substring(0, n)`: the first `n` characters of `s`
(written on the character list so that proofs and the kernel can
evaluate it). -/
def strTake (s : String) (n : Nat) : String :=
  ⟨s.data.take n⟩

/-- JavaScript `s.substring(n)`: everything after the first `n`
characters of `s` (empty when `n` exceeds the length). -/
def strDrop (s : String) (n : Nat) : String :=
  ⟨s.data.drop n⟩

/-- `startsWith` from `@typek/typek` as used by the source: does `s`
start with the literal `p`? -/
def strStarts (s p : String) : Bool :=
  p.data.isPrefixOf s.data

/-- One step of `parseArguments`' `parse` closure (`src/args.ts`):
given the current end-of-options state and one raw string, produce the
new state and the emitted token. -/
def parseOne (eoo : Bool) (arg : String) : Bool × ParsedArgument :=
  if eoo then (true, .text arg)
  else if arg = "--" then (true, .endOfOptions)
  else if strStarts arg "--" then
    match arg.data.findIdx? (fun c => c == '=') with
    | none => (false, .long arg none)
    | some eq => (false, .long (strTake arg eq) (some (strDrop arg (eq + 1))))
  else if strStarts arg "-" then (false, .short arg)
  else (false, .text arg)

/-- The loop `for (const arg of rawArgs) parse(arg)` of `parseArguments`,
threading the `eoo` flag and emitting one token per raw string. -/
def parseArgumentsGo (eoo : Bool) : List String → List ParsedArgument
  | [] => []
  | arg :: rest =>
    let s := parseOne eoo arg
    s.2 :: parseArgumentsGo s.1 rest

/-- `src/args.ts`, `parseArguments` (the `parsed` field of its result). -/
def parseArguments (rawArgs : List String) : List ParsedArgument :=
  parseArgumentsGo false rawArgs

/-- JavaScript string indexing `s[i]`: the `i`-th character, or
`undefined` (here `none`) when out of bounds. -/
def charAt (s : String) (i : Nat) : Option Char :=
  s.data.get? i

/-- JavaScript `o?.[i]` on an optional string. -/
def optCharAt (o : Option String) (i : Nat) : Option Char :=
  o.bind (fun s => charAt s i)

/-- The spec destructuring shared by `has` and `get` (`src/args.ts`):
a spec starting with `--` is a long spec (with the optional second
argument as short spec), one starting with `-` is a short spec, and
anything else throws a `TypeError` (modelled as `Except.error ()`). -/
def splitSpec (a : String) (b : Option String) :
    Except Unit (Option String × Option String) :=
  if strStarts a "--" then .ok (some a, b)
  else if strStarts a "-" then .ok (none, some a)
  else .error ()

/-- JavaScript `hay.includes(needle)`: substring containment, written
as a recursion over the haystack's characters. -/
def containsSub (needle : List Char) : List Char → Bool
  | [] => needle.isPrefixOf []
  | c :: rest => needle.isPrefixOf (c :: rest) || containsSub needle rest

/-- JavaScript truthiness of a possibly-undefined string: `undefined`
and the empty string are falsy. -/
def truthyStr : Option String → Bool
  | none => false
  | some s => s ≠ ""

/-- The body of the loop of `has` (`src/args.ts`) on one token.  The
long branch is `"long" in arg && arg.long === long`; the short branch
is `"short" in arg && short && arg.short.includes(short[1])` — when the
short spec has no character at index 1, JavaScript's `String.includes`
coerces `undefined` to the string `"undefined"` and searches for it. -/
def hasTok (longSpec shortSpec : Option String) : ParsedArgument → Bool
  | .long name _ => longSpec = some name
  | .short s =>
    truthyStr shortSpec &&
      (match optCharAt shortSpec 1 with
       | some c => s.data.contains c
       | none => containsSub "undefined".data s.data)
  | _ => false

/-- The loop of `has` (`src/args.ts`): `true` as soon as a token
matches, `false` when the sequence is exhausted. -/
def hasGo (longSpec shortSpec : Option String) : List ParsedArgument → Bool
  | [] => false
  | arg :: rest =>
    hasTok longSpec shortSpec arg || hasGo longSpec shortSpec rest

/-- `src/args.ts`, `has`. -/
def hasFlag (args : List ParsedArgument) (a : String) (b : Option String) :
    Except Unit Bool :=
  (splitSpec a b).map (fun p => hasGo p.1 p.2 args)

/-- The loop of `get` (`src/args.ts`), threading the running `value`.
`rest.head?` plays the role of `parsedArgs[i + 1]` (the token after the
current one); `parsedArgs[i + 1] ?? {}` without a `text` field yields the
empty string.  The short branch compares `arg.short[1] === short?.[1]`,
where both sides may be `undefined`. -/
def getGo (longSpec shortSpec : Option String) :
    Option String → List ParsedArgument → Option String
  | value, [] => value
  | value, arg :: rest =>
    let value' :=
      match arg with
      | .long name inline =>
        if longSpec = some name then
          match inline with
          | some v => some v
          | none =>
            match rest.head? with
            | some (.text t) => some t
            | _ => some ""
        else value
      | .short s =>
        if charAt s 1 = optCharAt shortSpec 1 then some (strDrop s 2) else value
      | _ => value
    getGo longSpec shortSpec value' rest

/-- `src/args.ts`, `get`. -/
def getFlag (args : List ParsedArgument) (a : String) (b : Option String) :
    Except Unit (Option String) :=
  (splitSpec a b).map (fun p => getGo p.1 p.2 none args)

/-- `src/errors.ts`, `ClapErrorKind`. -/
inductive ClapErrorKind where
  | libraryBug
  | developerInduced
  | invalidUserInput
  deriving DecidableEq, Repr

/-- `src/errors.ts`, `ClapErrorReason`. -/
inductive ClapErrorReason where
  | unreachable
  | badConfiguration
  | subcommandLongFlagValue
  deriving DecidableEq, Repr

/-- `src/errors.ts`: the three concrete `ClapError` classes.
`unreachable` and `configuration` carry their message; the
subcommand-long-flag-value error carries the flag and the valueit was
constructed with. -/
inductive ClapError where
  | unreachable (message : String)
  | configuration (message : String)
  | subcommandLongFlagValue (flag : String) (value : String)
  deriving DecidableEq, Repr

/-- The `kind` field of each error class (`src/errors.ts`). -/
def ClapError.kind : ClapError → ClapErrorKind
  | .unreachable _ => .libraryBug
  | .configuration _ => .developerInduced
  | .subcommandLongFlagValue _ _ => .invalidUserInput

/-- The `reason` field of each error class (`src/errors.ts`). -/
def ClapError.reason : ClapError → ClapErrorReason
  | .unreachable _ => .unreachable
  | .configuration _ => .badConfiguration
  | .subcommandLongFlagValue _ _ => .subcommandLongFlagValue

/-- The flat data of one command / subcommand definition
(`src/command.ts`, `CommandDefinition` and `SubcommandDefinition`,
merged as in TypeScript's structural extension).  The `action` callback
is modelled by its presence (`hasAction`); `about`, `arguments` and
`version` play no role in validation or resolution and are omitted.
Optional string fields are `Option String` (`none` = `undefined`),
optional lists are plain lists (`[]` = absent). -/
structure CmdFields where
  name : String
  hasAction : Bool
  subcommandRequired : Bool
  isDefault : Bool
  «alias» : List String
  longFlag : Option String
  longFlagAliases : List String
  shortFlag : Option String
  shortFlagAliases : List String
  disallowWithoutFlag : Bool
  deriving DecidableEq, Repr

/-- A command tree: one command's fields plus its subcommand list. -/
inductive Cmd where
  | mk (fields : CmdFields) (subcommands : List Cmd)

def Cmd.fields : Cmd → CmdFields
  | .mk f _ => f

def Cmd.subcommands : Cmd → List Cmd
  | .mk _ s => s

/-- Message of `validateSubcommandRequired` (`src/validate.ts`). -/
def configMsgSubcommandRequired (name : String) : String :=
  "In command `" ++ name ++
    "`, a subcommand is required, yet no subcommands are specified."

/-- `src/validate.ts`, `validateSubcommandRequired`: the condition
`x.subcommandRequired && !x.subcommands?.length` (an absent or empty
subcommand list is falsy). -/
def validateSubcommandRequired (f : CmdFields) (subs : List Cmd) :
    Except ClapError Unit :=
  if f.subcommandRequired && subs.isEmpty then
    .error (.configuration (configMsgSubcommandRequired f.name))
  else .ok ()

/-- The names of the `isDefault` entries of a subcommand list
(`defaultNames` in `validateMultipleDefault`, `src/validate.ts`). -/
def defaultNames (subs : List Cmd) : List String :=
  (subs.filter (fun s => s.fields.isDefault)).map (fun s => s.fields.name)

/-- Message of `validateMultipleDefault` (`src/validate.ts`). -/
def configMsgMultipleDefault (name : String) (defaults : List String) :
    String :=
  "In command `" ++ name ++
    "`, multiple subcommands are specified as default: " ++
    String.intercalate ", " defaults

/-- `src/validate.ts`, `validateMultipleDefault`. -/
def validateMultipleDefault (f : CmdFields) (subs : List Cmd) :
    Except ClapError Unit :=
  if (defaultNames subs).length > 1 then
    .error (.configuration (configMsgMultipleDefault f.name
      (defaultNames subs)))
  else .ok ()

/-- Message of `validateDisallowWithoutFlag` (`src/validate.ts`). -/
def configMsgDisallowWithoutFlag (name : String) : String :=
  "In subcommand `" ++ name ++
    "`, calling without flag is disallowed, yet neither `longFlag` nor `shortFlag` are specified."

/-- `src/validate.ts`, `validateDisallowWithoutFlag`: the condition
`x.disallowWithoutFlag && !(x.longFlag || x.shortFlag)` — an empty
string flag is falsy. -/
def validateDisallowWithoutFlag (f : CmdFields) : Except ClapError Unit :=
  if f.disallowWithoutFlag && !(truthyStr f.longFlag || truthyStr f.shortFlag)
  then .error (.configuration (configMsgDisallowWithoutFlag f.name))
  else .ok ()

/-- Message of `validateShortFlagSingleChar` (`src/validate.ts`). -/
def configMsgShortFlagSingleChar (name flag : String) : String :=
  "In subcommand `" ++ name ++ "`, a short flag `" ++ flag ++
    "` was specified. Only short flags consisting of single letter are supported."

/-- `src/validate.ts`, `validateShortFlagSingleChar`: the condition is
`x.shortFlag && x.shortFlag.length !== 1`, so an `undefined` or (falsy)
empty-string flag is not checked. -/
def validateShortFlagSingleChar (name : String) (shortFlag : Option String) :
    Except ClapError Unit :=
  match shortFlag with
  | some s =>
    if s ≠ "" && s.length ≠ 1 then
      .error (.configuration (configMsgShortFlagSingleChar name s))
    else .ok ()
  | none => .ok ()

/-- `src/validate.ts`, `validateShortFlagAliasesSingleChar`: runs the
single-char check on `{ name: x.name, shortFlag: s }` for every alias. -/
def validateShortFlagAliasesSingleChar (name : String) :
    List String → Except ClapError Unit
  | [] => .ok ()
  | s :: rest => do
    validateShortFlagSingleChar name (some s)
    validateShortFlagAliasesSingleChar name rest

/-- Message of `validateFlagAliasesWithoutFlag` (`src/validate.ts`);
`kindWord` is the interpolated `"long"` or `"short"`. -/
def configMsgFlagAliasesWithoutFlag (name kindWord : String) : String :=
  "In subcommand `" ++ name ++ "`, an alias for a " ++ kindWord ++
    " flag has been provided while `" ++ kindWord ++ "Flag` is not specified."

/-- `src/validate.ts`, `validateFlagAliasesWithoutFlag`: the condition
`x[type + "FlagAliases"]?.length && !x[type + "Flag"]`. -/
def validateFlagAliasesWithoutFlag (name : String) (aliases : List String)
    (flag : Option String) (kindWord : String) : Except ClapError Unit :=
  if !aliases.isEmpty && !truthyStr flag then
    .error (.configuration (configMsgFlagAliasesWithoutFlag name kindWord))
  else .ok ()

/-- The non-recursive tail of `validateSubcommandDefinition`
(`src/validate.ts`): everything it runs after the recursive
`validateCommandDefinition` call, in source order. -/
def validateSubcommandChecks (s : Cmd) : Except ClapError Unit := do
  validateDisallowWithoutFlag s.fields
  validateShortFlagSingleChar s.fields.name s.fields.shortFlag
  validateShortFlagAliasesSingleChar s.fields.name s.fields.shortFlagAliases
  validateFlagAliasesWithoutFlag s.fields.name s.fields.longFlagAliases
    s.fields.longFlag "long"
  validateFlagAliasesWithoutFlag s.fields.name s.fields.shortFlagAliases
    s.fields.shortFlag "short"

mutual

/-- `src/validate.ts`, `validateCommandDefinition`: the three checks in
source order, exceptions short-circuiting. -/
def validateCommandDefinition : Cmd → Except ClapError Unit
  | .mk f subs => do
    validateSubcommandRequired f subs
    validateMultipleDefault f subs
    validateSubcommands subs

/-- `src/validate.ts`, `validateSubcommands`: validate each subcommand
in order; each subcommand runs `validateCommandDefinition` first and
then the subcommand-specific checks (`validateSubcommandDefinition`,
spelled out here for the termination checker). -/
def validateSubcommands : List Cmd → Except ClapError Unit
  | [] => .ok ()
  | s :: rest => do
    validateCommandDefinition s
    validateSubcommandChecks s
    validateSubcommands rest

end

/-- `src/validate.ts`, `validateSubcommandDefinition`. -/
def validateSubcommandDefinition (s : Cmd) : Except ClapError Unit := do
  validateCommandDefinition s
  validateSubcommandChecks s

/-- `src/validate.ts`, `validateCommandOptions`. -/
def validateCommandOptions (c : Cmd) : Except ClapError Unit :=
  validateCommandDefinition c

/-- The result record of `matchSubcommand` (`src/command.ts`):
`{ sub?, nextArg? }`. -/
structure SubMatch where
  sub : Option Cmd
  nextArg : Option ParsedArgument

/-- The text branch of `matchSubcommand` (`src/command.ts`):
`!sub.disallowWithoutFlag && argument.text === sub.name`. -/
def subTextMatch (sub : Cmd) (t : String) : Bool :=
  !sub.fields.disallowWithoutFlag && t == sub.fields.name

/-- The long-flag branch test of `matchSubcommand` (`src/command.ts`):
`sub.longFlag !== undefined &&
 [sub.longFlag, ...(sub.longFlagAliases ?? [])].includes(argument.long.substring(2))`. -/
def subLongMatch (sub : Cmd) (name : String) : Bool :=
  match sub.fields.longFlag with
  | some lf => (lf :: sub.fields.longFlagAliases).contains (strDrop name 2)
  | none => false

/-- The short-flag branch test of `matchSubcommand` (`src/command.ts`):
`sub.shortFlag !== undefined &&
 [sub.shortFlag, ...(sub.shortFlagAliases ?? [])].some(s => s === argument.short[1])` —
the candidate string `s` is compared with the bundle's first letter
(`undefined` when the bundle is a bare dash, which equals no string). -/
def subShortMatch (sub : Cmd) (s : String) : Bool :=
  match sub.fields.shortFlag with
  | some sf =>
    (sf :: sub.fields.shortFlagAliases).any
      (fun x => (charAt s 1).map (fun c => String.singleton c) == some x)
  | none => false

/-- The `for (const sub of command.subcommands ?? [])` loop of
`matchSubcommand` (`src/command.ts`), trying the text, long-flag and
short-flag branches on each subcommand in declaration order.  A match
returns the sub (with the re-injected remainder bundle for a short
bundle of more than one letter); a long-flag match with an inline value
throws `ClapSubcommandLongFlagValueError`. -/
def matchSubcommandLoop (argument : ParsedArgument) :
    List Cmd → Except ClapError (Option SubMatch)
  | [] => .ok none
  | sub :: rest =>
    match argument with
    | .text t =>
      if subTextMatch sub t then .ok (some ⟨some sub, none⟩)
      else matchSubcommandLoop argument rest
    | .long name inline =>
      if subLongMatch sub name then
        match inline with
        | some v => .error (.subcommandLongFlagValue name v)
        | none => .ok (some ⟨some sub, none⟩)
      else matchSubcommandLoop argument rest
    | .short s =>
      if subShortMatch sub s then
        if s.length = 2 then .ok (some ⟨some sub, none⟩)
        else .ok (some ⟨some sub, some (.short ("-" ++ strDrop s 2))⟩)
      else matchSubcommandLoop argument rest
    | .endOfOptions => matchSubcommandLoop argument rest

/-- `src/command.ts`, `matchSubcommand`: the loop above, then the
default subcommand (`command.subcommands?.find(s => s.isDefault)`, the
unconsumed token passed on as `nextArg`), then the no-subcommand
fallthrough. -/
def matchSubcommand (command : Cmd) (argument : ParsedArgument) :
    Except ClapError SubMatch :=
  match matchSubcommandLoop argument command.subcommands with
  | .error e => .error e
  | .ok (some r) => .ok r
  | .ok none =>
    match command.subcommands.find? (fun s => s.fields.isDefault) with
    | some sub => .ok ⟨some sub, some argument⟩
    | none => .ok ⟨none, some argument⟩

/-- JSON string escaping as `JSON.stringify` performs it on the strings
occurring in this development (backslash and double quote; the escapes
for control characters are not modelled). -/
def jsonEscape (s : String) : String :=
  ⟨s.data.foldr
    (fun c acc => if c = '"' || c = '\\' then '\\' :: c :: acc else c :: acc)
    []⟩

/-- A JSON string literal. -/
def jsonStr (s : String) : String :=
  "\"" ++ jsonEscape s ++ "\""

/-- `JSON.stringify` applied to a `ParsedArgument` object, with the
keys in construction order (`src/args.ts`). -/
def jsonOfArg : ParsedArgument → String
  | .text v => "\x7b\"text\":" ++ jsonStr v ++ "\x7d"
  | .long name none => "\x7b\"long\":" ++ jsonStr name ++ "\x7d"
  | .long name (some a) =>
    "\x7b\"long\":" ++ jsonStr name ++ ",\"argument\":" ++ jsonStr a ++ "\x7d"
  | .short v => "\x7b\"short\":" ++ jsonStr v ++ "\x7d"
  | .endOfOptions => "\x7b\"endOfOptions\":\"--\"\x7d"

/-- The `while` loop of `handle` (`src/command.ts`).  On success the
value is the list of commands whose `action` callback was invoked; the
source's loop body contains no action invocation at all (the
`if (sub) { }` block is empty and discards the match result), so it
either throws the matcher's error or unconditionally throws
`ClapUnreachableError` — no iteration beyond the first token occurs,
and an empty queue returns with nothing invoked. -/
def handleGo (command : Cmd) :
    List ParsedArgument → Except ClapError (List String)
  | [] => .ok []
  | arg :: _rest => do
    let _ ← matchSubcommand command arg
    .error (.unreachable ("Unexpected type of argument: " ++ jsonOfArg arg))

/-- `src/command.ts`, `handle`, on an already-parsed argument list. -/
def handle (options : Cmd) (args : List ParsedArgument) :
    Except ClapError (List String) :=
  handleGo options args

/-- `src/command.ts`, `handle`, on a raw string array (the
`Array.isArray` branch runs `parseArguments` first). -/
def handleRaw (options : Cmd) (rawArgs : List String) :
    Except ClapError (List String) :=
  handleGo options (parseArguments rawArgs)

/-!
Concrete command trees used by the theorems below.
-/

/-- A plain command with the given name and subcommands: no action, no
flags, nothing required, not default. -/
def plainCmd (name : String) (subs : List Cmd) : Cmd :=
  .mk ⟨name, false, false, false, [], none, [], none, [], false⟩ subs

def exShortB : Cmd :=
  .mk ⟨"b", true, false, false, [], none, [], some "b", [], false⟩ []

def exShortA : Cmd :=
  .mk ⟨"a", false, false, false, [], none, [], some "a", [], false⟩ [exShortB]

def exLongFoo : Cmd :=
  .mk ⟨"s", false, false, false, [], some "foo", [], none, [], false⟩ []

/-- A root command carrying an action and nothing else. -/
def actionRoot : Cmd :=
  .mk ⟨"root", true, false, false, [], none, [], none, [], false⟩ []

/-- A root command with an action, `subcommandRequired: true` and one
(plain) subcommand, so that it passes validation. -/
def reqRoot : Cmd :=
  .mk ⟨"root", true, true, false, [], none, [], none, [], false⟩
    [plainCmd "s" []]

/-- A subcommand with `isDefault: true` and nothing else. -/
def defaultSub (name : String) : Cmd :=
  .mk ⟨name, false, false, true, [], none, [], none, [], false⟩ []

/-- A root whose two direct subcommands are both default. -/
def twoDefaultRoot : Cmd :=
  .mk ⟨"root", false, false, false, [], none, [], none, [], false⟩
    [defaultSub "d1", defaultSub "d2"]

/-- A subcommand with `disallowWithoutFlag: true` but neither `longFlag`
nor `shortFlag` — its own validation error precedes any later sibling's. -/
def disallowY : Cmd :=
  .mk ⟨"y", false, false, false, [], none, [], none, [], true⟩ []

/-- A (nested) command whose two direct subcommands are both default. -/
def twoDefaultX : Cmd :=
  .mk ⟨"x", false, false, false, [], none, [], none, [], false⟩
    [defaultSub "d1", defaultSub "d2"]

/-- A tree containing `twoDefaultX`, preceded by the invalid sibling
`disallowY`. -/
def c8tree : Cmd := plainCmd "root" [disallowY, twoDefaultX]

/-- A subcommand whose `shortFlag` is the empty string. -/
def emptyShortSub : Cmd :=
  .mk ⟨"s", false, false, false, [], none, [], some "", [], false⟩ []

def c9tree : Cmd := plainCmd "root" [emptyShortSub]

/-- A subcommand with a one-character `shortFlag` and an empty-string
entry among its `shortFlagAliases`. -/
def emptyAliasSub : Cmd :=
  .mk ⟨"t", false, false, false, [], none, [], some "x", [""], false⟩ []

def c9treeB : Cmd := plainCmd "root" [emptyAliasSub]

/-- A subcommand whose `shortFlag` has two characters. -/
def badShortSub : Cmd :=
  .mk ⟨"s", false, false, false, [], none, [], some "xy", [], false⟩ []

def badShortTree : Cmd := plainCmd "root" [badShortSub]

/-!
Claim-side definitions: statements of the specification written out in
its own words, to be compared with the embedded source functions.
-/

/-- Modelled from the spec (tokenizer rules, outside end-of-options
mode and for strings other than the literal `--`): a string starting
with `--` is a long flag split at the first `=` into name and inline
value (no inline value when `=` is absent); another string starting
with `-` is a short-flag bundle; anything else is text. -/
def claimClassify (arg : String) : ParsedArgument :=
  if strStarts arg "--" then
    match arg.data.findIdx? (fun c => c == '=') with
    | none => .long arg none
    | some eq => .long (strTake arg eq) (some (strDrop arg (eq + 1)))
  else if strStarts arg "-" then .short arg
  else .text arg

/-- Modelled from the spec (C4's contribution rule for one token
given the immediately following token): a matching long flag
contributes its inline value, else the following text token's value,
else the empty string; a short-flag bundle whose first character equals
the short spec's character contributes the remainder of the bundle. -/
def claimContrib (longSpec shortSpec : Option String)
    (arg : ParsedArgument) (next : Option ParsedArgument) : Option String :=
  match arg with
  | .long name inline =>
    if longSpec = some name then
      some (match inline with
            | some v => v
            | none => match next with | some (.text t) => t | _ => "")
    else none
  | .short s =>
    match optCharAt shortSpec 1, charAt s 1 with
    | some c, some c' => if c = c' then some (strDrop s 2) else none
    | _, _ => none
  | _ => none

/-- The C4 contribution rule amended to the source's comparison: the
short-bundle branch also fires when the bundle's first character and
the short spec's character are both absent (bare `-` bundle with no
short spec, or a one-character short spec). -/
def amendedContrib (longSpec shortSpec : Option String)
    (arg : ParsedArgument) (next : Option ParsedArgument) : Option String :=
  match arg with
  | .long name inline =>
    if longSpec = some name then
      some (match inline with
            | some v => v
            | none => match next with | some (.text t) => t | _ => "")
    else none
  | .short s =>
    if charAt s 1 = optCharAt shortSpec 1 then some (strDrop s 2) else none
  | _ => none

/-- The values contributed by each token of a sequence under the claim
rule `f`, in order (each token sees the token after it). -/
def contribList
    (f : ParsedArgument → Option ParsedArgument → Option String) :
    List ParsedArgument → List String
  | [] => []
  | arg :: rest =>
    match f arg rest.head? with
    | some v => v :: contribList f rest
    | none => contribList f rest

/-- The running result of `get`: the last contribution if any,
otherwise the running value. -/
def lastWins (l : List String) (v : Option String) : Option String :=
  match l.getLast? with
  | some x => some x
  | none => v

/-- Do all short tokens of a sequence carry their leading dash, as
every short token produced by the tokenizer does? -/
def shortTokensDashed (args : List ParsedArgument) : Bool :=
  args.all (fun a => match a with
    | .short s => strStarts s "-"
    | _ => true)

mutual

/-- Does every command of this tree (its root included) have at most
one direct `isDefault` subcommand? -/
def noMultiDefault : Cmd → Bool
  | .mk _ subs =>
    decide ((defaultNames subs).length ≤ 1) && noMultiDefaultList subs

/-- `noMultiDefault` for every tree of a forest. -/
def noMultiDefaultList : List Cmd → Bool
  | [] => true
  | c :: rest => noMultiDefault c && noMultiDefaultList rest

end

/-- C9's claim-side condition on one definition's fields, restricted to
the nonempty flags the runtime validator actually checks: a nonempty
`shortFlag` and every nonempty `shortFlagAliases` entry is exactly one
character. -/
def goodShortFields (f : CmdFields) : Bool :=
  (match f.shortFlag with
   | some s => s == "" || s.length == 1
   | none => true) &&
  f.shortFlagAliases.all (fun s => s == "" || s.length == 1)

mutual

/-- `goodShortFields` for this subcommand and, recursively, for every
subcommand below it. -/
def goodShortFlags : Cmd → Bool
  | .mk f subs => goodShortFields f && goodShortFlagsList subs

/-- `goodShortFlags` for every subcommand of a forest. -/
def goodShortFlagsList : List Cmd → Bool
  | [] => true
  | c :: rest => goodShortFlags c && goodShortFlagsList rest

end

/-!  Helper lemmas about the tokenizer. -/

theorem parseArgumentsGo_length (raws : List String) :
    ∀ eoo : Bool, (parseArgumentsGo eoo raws).length = raws.length := by
  induction raws with
  | nil => intro eoo; rfl
  | cons arg rest ih => intro eoo; simp [parseArgumentsGo, ih]

theorem parseArgumentsGo_true (raws : List String) :
    parseArgumentsGo true raws = raws.map ParsedArgument.text := by
  induction raws with
  | nil => rfl
  | cons arg rest ih => simp [parseArgumentsGo, parseOne, ih]

theorem parseOne_ne_eoo {arg : String} (h : arg ≠ "--") :
    parseOne false arg = (false, claimClassify arg) := by
  rw [parseOne, claimClassify]
  simp only [Bool.false_eq_true, if_false, if_neg h]
  split
  · split <;> rfl
  · split <;> rfl

theorem parseArgumentsGo_no_eoo {raws : List String} (h : "--" ∉ raws) :
    parseArgumentsGo false raws = raws.map claimClassify := by
  induction raws with
  | nil => rfl
  | cons arg rest ih =>
    have harg : arg ≠ "--" := fun he => h (he ▸ List.mem_cons_self arg rest)
    have hrest : "--" ∉ rest := fun hm => h (List.mem_cons_of_mem arg hm)
    simp [parseArgumentsGo, parseOne_ne_eoo harg, ih hrest]

theorem parseArgumentsGo_split {pre : List String} (post : List String)
    (h : "--" ∉ pre) :
    parseArgumentsGo false (pre ++ "--" :: post) =
      parseArgumentsGo false pre ++
        ParsedArgument.endOfOptions :: post.map ParsedArgument.text := by
  induction pre with
  | nil =>
    simp [parseArgumentsGo, parseOne, parseArgumentsGo_true]
  | cons arg rest ih =>
    have harg : arg ≠ "--" := fun he => h (he ▸ List.mem_cons_self arg rest)
    have hrest : "--" ∉ rest := fun hm => h (List.mem_cons_of_mem arg hm)
    simp [parseArgumentsGo, parseOne_ne_eoo harg, ih hrest]

/-- C3: tokenization is total and deterministic (it is a function),
emits exactly one token per input string, classifies each string by the
claim's rules (`claimClassify`) as long as no end-of-options marker has
occurred, collapses the first `--` to `EndOfOptions`, turns everything
after it into `Text` (so nothing after it is ever a flag), and maps
`["--hello", "world", "-aBc"]` to the claimed long/text/short tokens. -/
theorem parseArguments_classification :
    (∀ raws : List String, (parseArguments raws).length = raws.length) ∧
    parseArguments ["--hello", "world", "-aBc"] =
      [.long "--hello" none, .text "world", .short "-aBc"] ∧
    (∀ raws : List String, "--" ∉ raws →
      parseArguments raws = raws.map claimClassify) ∧
    (∀ pre post : List String, "--" ∉ pre →
      parseArguments (pre ++ "--" :: post) =
        parseArguments pre ++
          ParsedArgument.endOfOptions :: post.map ParsedArgument.text) := by
  refine ⟨fun raws => parseArgumentsGo_length raws false, by decide,
    fun raws h => parseArgumentsGo_no_eoo h,
    fun pre post h => parseArgumentsGo_split post h⟩

/-- Witness for C3: the hypothesis-bearing parts instantiated at
concrete inputs. -/
theorem parseArguments_classification_witness :
    parseArguments ["-a", "world"] = ["-a", "world"].map claimClassify ∧
    parseArguments (["-a"] ++ "--" :: ["--x", "-y"]) =
      parseArguments ["-a"] ++
        ParsedArgument.endOfOptions ::
          (["--x", "-y"].map ParsedArgument.text) :=
  ⟨parseArguments_classification.2.2.1 ["-a", "world"] (by decide),
   parseArguments_classification.2.2.2 ["-a"] ["--x", "-y"] (by decide)⟩

/-!  Helper lemmas about the flag query engine. -/

theorem getLast?_cons_elim {α : Type} (c : α) (l : List α) :
    (c :: l).getLast? =
      match l.getLast? with
      | some x => some x
      | none => some c := by
  cases l with
  | nil => rfl
  | cons b t =>
    rw [List.getLast?_cons_cons]
    cases h : (b :: t).getLast? with
    | none => exact absurd (List.getLast?_eq_none_iff.mp h) (by simp)
    | some x => rfl

theorem lastWins_cons (c : String) (l : List String) (v : Option String) :
    lastWins (c :: l) v = lastWins l (some c) := by
  unfold lastWins
  rw [getLast?_cons_elim]
  cases l.getLast? <;> rfl

theorem getGo_step (longSpec shortSpec : Option String)
    (arg : ParsedArgument) (rest : List ParsedArgument) (v : Option String) :
    getGo longSpec shortSpec v (arg :: rest) =
      getGo longSpec shortSpec
        (match amendedContrib longSpec shortSpec arg rest.head? with
         | some c => some c
         | none => v) rest := by
  cases arg with
  | text t => rfl
  | endOfOptions => rfl
  | long name inline =>
    simp only [getGo, amendedContrib]
    by_cases h : longSpec = some name
    · rw [if_pos h, if_pos h]
      cases inline with
      | some w => rfl
      | none => cases hh : rest.head? with
        | none => rfl
        | some nxt => cases nxt <;> rfl
    · rw [if_neg h, if_neg h]
  | short s =>
    simp only [getGo, amendedContrib]
    by_cases h : charAt s 1 = optCharAt shortSpec 1
    · rw [if_pos h, if_pos h]
    · rw [if_neg h, if_neg h]

theorem contribList_cons
    (f : ParsedArgument → Option ParsedArgument → Option String)
    (arg : ParsedArgument) (rest : List ParsedArgument) :
    contribList f (arg :: rest) =
      match f arg rest.head? with
      | some v => v :: contribList f rest
      | none => contribList f rest := rfl

theorem getGo_eq_lastWins (longSpec shortSpec : Option String) :
    ∀ (args : List ParsedArgument) (v : Option String),
      getGo longSpec shortSpec v args =
        lastWins (contribList (amendedContrib longSpec shortSpec) args) v := by
  intro args
  induction args with
  | nil => intro v; rfl
  | cons arg rest ih =>
    intro v
    rw [getGo_step, contribList_cons]
    cases hc : amendedContrib longSpec shortSpec arg rest.head? with
    | none => exact ih v
    | some c => rw [ih (some c), lastWins_cons]

/-- C4 (amended): `get` returns the value of the last contributing
occurrence, where the contribution rule is the claim's — a matching
long flag contributes its inline value, else the following text token,
else `""`; a short bundle contributes its remainder after the first
character — amended so that the short branch also fires when the
bundle's first character and the short spec's character are both
absent; `get` is `none` (undefined) when nothing contributes, and
`get(["--add","3","--add=5"], "--add") = "5"`. -/
theorem get_last_contribution :
    (∀ (longSpec shortSpec : Option String) (args : List ParsedArgument),
      getGo longSpec shortSpec none args =
        (contribList (amendedContrib longSpec shortSpec) args).getLast?) ∧
    getFlag (parseArguments ["--add", "3", "--add=5"]) "--add" none =
      .ok (some "5") := by
  refine ⟨fun ls ss args => ?_, rfl⟩
  rw [getGo_eq_lastWins]
  unfold lastWins
  cases (contribList (amendedContrib ls ss) args).getLast? <;> rfl

/-- C4 counterexample: with the long-only spec `--foo` on the tokens of
`["--foo", "x", "-"]`, the claim's contribution rule (`claimContrib`,
under which no short bundle can contribute without a short spec) makes
the last contribution `"x"`, but `get` returns `""` — the bare `-`
bundle matches the source's comparison and overwrites the result. -/
theorem get_last_contribution_counterexample :
    getGo (some "--foo") none none (parseArguments ["--foo", "x", "-"]) =
      some "" ∧
    (contribList (claimContrib (some "--foo") none)
        (parseArguments ["--foo", "x", "-"])).getLast? = some "x" ∧
    getGo (some "--foo") none none (parseArguments ["--foo", "x", "-"]) ≠
      (contribList (claimContrib (some "--foo") none)
        (parseArguments ["--foo", "x", "-"])).getLast? := by
  refine ⟨rfl, rfl, ?_⟩
  decide

/-- C10: when `get` is called with a long spec and no short name, a
bare `-` token still matches the short-bundle branch (absent first
letter and absent spec character compare equal) and overwrites the
running result with the empty string; in particular
`get(["--foo","x","-"], "--foo") = ""` (not `"x"`) and
`get(["-"], "--foo") = ""` (not undefined). -/
theorem get_bare_dash_overwrites :
    (∀ (longSpec v : Option String) (args : List ParsedArgument),
      getGo longSpec none v (args ++ [.short "-"]) = some "") ∧
    getFlag (parseArguments ["--foo", "x", "-"]) "--foo" none =
      .ok (some "") ∧
    getFlag (parseArguments ["-"]) "--foo" none = .ok (some "") := by
  refine ⟨?_, rfl, rfl⟩
  intro ls v args
  induction args generalizing v with
  | nil => rfl
  | cons arg rest ih =>
    rw [List.cons_append, getGo_step]
    exact ih _

theorem hasGo_eq_any (longSpec shortSpec : Option String)
    (args : List ParsedArgument) :
    hasGo longSpec shortSpec args = args.any (hasTok longSpec shortSpec) := by
  induction args with
  | nil => rfl
  | cons arg rest ih => simp [hasGo, ih]

theorem strStarts_dash_data {s : String} (h : strStarts s "-" = true) :
    s.data = '-' :: (strDrop s 1).data := by
  unfold strStarts at h
  cases hd : s.data with
  | nil => rw [hd] at h; exact absurd h (by decide)
  | cons c t =>
    rw [hd] at h
    simp only [List.isPrefixOf, List.isPrefixOf_nil_left, Bool.and_true,
      beq_iff_eq] at h
    unfold strDrop
    rw [hd, h]
    rfl

/-- C5: `has` is true iff some long-flag token's name equals the long
spec, or some short-flag bundle contains the short spec's character
anywhere among its letters (the characters after the bundle's dash);
with no short spec only long tokens count; matching is case-sensitive:
on the tokens of `-aBc`, `has("-B")` is true and `has("-b")` is false. -/
theorem has_presence :
    (∀ (args : List ParsedArgument) (longSpec : Option String) (c : Char),
      c ≠ '-' → shortTokensDashed args = true →
      (hasGo longSpec (some ⟨['-', c]⟩) args = true ↔
        (∃ name inline, ParsedArgument.long name inline ∈ args ∧
          longSpec = some name) ∨
        (∃ s, ParsedArgument.short s ∈ args ∧ c ∈ (strDrop s 1).data))) ∧
    (∀ (args : List ParsedArgument) (longSpec : Option String),
      hasGo longSpec none args = true ↔
        ∃ name inline, ParsedArgument.long name inline ∈ args ∧
          longSpec = some name) ∧
    hasFlag (parseArguments ["-aBc"]) "-B" none = .ok true ∧
    hasFlag (parseArguments ["-aBc"]) "-b" none = .ok false := by
  refine ⟨?_, ?_, rfl, rfl⟩
  · intro args longSpec c hc hdash
    rw [hasGo_eq_any, List.any_eq_true]
    have hspec : optCharAt (some (⟨['-', c]⟩ : String)) 1 = some c := rfl
    have htru : truthyStr (some (⟨['-', c]⟩ : String)) = true := by
      simp [truthyStr, String.ext_iff]
    constructor
    · rintro ⟨x, hx, htok⟩
      cases x with
      | text t => exact absurd htok (by simp [hasTok])
      | endOfOptions => exact absurd htok (by simp [hasTok])
      | long name inline =>
        simp only [hasTok, decide_eq_true_eq] at htok
        exact .inl ⟨name, inline, hx, htok⟩
      | short s =>
        refine .inr ⟨s, hx, ?_⟩
        simp only [hasTok, htru, hspec, Bool.true_and] at htok
        simp only [List.contains] at htok
        have hmem : c ∈ s.data := by
          have := List.elem_iff.mp htok
          exact this
        have hdashS : strStarts s "-" = true := by
          have := (List.all_eq_true.mp hdash) _ hx
          simpa using this
        rw [strStarts_dash_data hdashS] at hmem
        rcases List.mem_cons.mp hmem with h1 | h1
        · exact absurd h1 hc
        · exact h1
    · rintro (⟨name, inline, hx, hls⟩ | ⟨s, hx, hmem⟩)
      · exact ⟨.long name inline, hx, by simp [hasTok, hls]⟩
      · refine ⟨.short s, hx, ?_⟩
        simp only [hasTok, htru, hspec, Bool.true_and]
        have hdashS : strStarts s "-" = true := by
          have := (List.all_eq_true.mp hdash) _ hx
          simpa using this
        simp only [List.contains]
        exact List.elem_iff.mpr
          (by rw [strStarts_dash_data hdashS]; exact List.mem_cons_of_mem _ hmem)
  · intro args longSpec
    rw [hasGo_eq_any, List.any_eq_true]
    constructor
    · rintro ⟨x, hx, htok⟩
      cases x with
      | text t => exact absurd htok (by simp [hasTok])
      | endOfOptions => exact absurd htok (by simp [hasTok])
      | short s => exact absurd htok (by simp [hasTok, truthyStr])
      | long name inline =>
        simp only [hasTok, decide_eq_true_eq] at htok
        exact ⟨name, inline, hx, htok⟩
    · rintro ⟨name, inline, hx, hls⟩
      exact ⟨.long name inline, hx, by simp [hasTok, hls]⟩

/-- Witness for C5: the characterization instantiated on the tokens of
`-aBc` with the spec `-B`. -/
theorem has_presence_witness :
    hasGo none (some ⟨['-', 'B']⟩) (parseArguments ["-aBc"]) = true ↔
      (∃ name inline,
        ParsedArgument.long name inline ∈ parseArguments ["-aBc"] ∧
          (none : Option String) = some name) ∨
      (∃ s, ParsedArgument.short s ∈ parseArguments ["-aBc"] ∧
        'B' ∈ (strDrop s 1).data) :=
  has_presence.1 (parseArguments ["-aBc"]) none 'B' (by decide) (by decide)

/-!  Helper lemmas about the subcommand matcher and `handle`. -/

theorem matchSubcommandLoop_long_value (name v : String) :
    ∀ subs : List Cmd, (∃ sub ∈ subs, subLongMatch sub name = true) →
      matchSubcommandLoop (.long name (some v)) subs =
        .error (.subcommandLongFlagValue name v) := by
  intro subs
  induction subs with
  | nil => rintro ⟨s, hs, _⟩; exact absurd hs (List.not_mem_nil s)
  | cons sub rest ih =>
    intro h
    by_cases hm : subLongMatch sub name = true
    · simp [matchSubcommandLoop, hm]
    · have h' : ∃ s ∈ rest, subLongMatch s name = true := by
        rcases h with ⟨s, hs, hmatch⟩
        rcases List.mem_cons.mp hs with rfl | hs'
        · exact absurd hmatch hm
        · exact ⟨s, hs', hmatch⟩
      simp only [matchSubcommandLoop, if_neg hm]
      exact ih h'

theorem matchSubcommandLoop_long_none (name : String) :
    ∀ subs : List Cmd, (∃ sub ∈ subs, subLongMatch sub name = true) →
      ∃ sub, sub ∈ subs ∧ subLongMatch sub name = true ∧
        matchSubcommandLoop (.long name none) subs =
          .ok (some ⟨some sub, none⟩) := by
  intro subs
  induction subs with
  | nil => rintro ⟨s, hs, _⟩; exact absurd hs (List.not_mem_nil s)
  | cons sub rest ih =>
    intro h
    by_cases hm : subLongMatch sub name = true
    · exact ⟨sub, List.mem_cons_self sub rest, hm,
        by simp [matchSubcommandLoop, hm]⟩
    · have h' : ∃ s ∈ rest, subLongMatch s name = true := by
        rcases h with ⟨s, hs, hmatch⟩
        rcases List.mem_cons.mp hs with rfl | hs'
        · exact absurd hmatch hm
        · exact ⟨s, hs', hmatch⟩
      rcases ih h' with ⟨s, hs, hmatch, heq⟩
      exact ⟨s, List.mem_cons_of_mem sub hs, hmatch,
        by simp only [matchSubcommandLoop, if_neg hm]; exact heq⟩

/-- C7: during resolution, a long-flag token carrying an inline value
that matches some subcommand's `longFlag` or one of its
`longFlagAliases` raises the `SubcommandLongFlagValue` error (kind
invalid-user-input) reporting the flag and the value, while the same
token without an inline value selects a matching subcommand without
error. -/
theorem subcommand_long_flag_value :
    (∀ (cmd : Cmd) (name v : String),
      (∃ sub ∈ cmd.subcommands, subLongMatch sub name = true) →
      matchSubcommand cmd (.long name (some v)) =
        .error (.subcommandLongFlagValue name v) ∧
      (ClapError.subcommandLongFlagValue name v).kind = .invalidUserInput ∧
      (ClapError.subcommandLongFlagValue name v).reason =
        .subcommandLongFlagValue) ∧
    (∀ (cmd : Cmd) (name : String),
      (∃ sub ∈ cmd.subcommands, subLongMatch sub name = true) →
      ∃ sub, sub ∈ cmd.subcommands ∧ subLongMatch sub name = true ∧
        matchSubcommand cmd (.long name none) = .ok ⟨some sub, none⟩) := by
  constructor
  · intro cmd name v h
    refine ⟨?_, rfl, rfl⟩
    unfold matchSubcommand
    rw [matchSubcommandLoop_long_value name v cmd.subcommands h]
  · intro cmd name h
    rcases matchSubcommandLoop_long_none name cmd.subcommands h with
      ⟨sub, hs, hmatch, heq⟩
    refine ⟨sub, hs, hmatch, ?_⟩
    unfold matchSubcommand
    rw [heq]

/-- Witness for C7: a tree whose subcommand `s` has `longFlag: "foo"`,
evaluated on `--foo=v` and on `--foo`. -/
theorem subcommand_long_flag_value_witness :
    (matchSubcommand (plainCmd "root" [exLongFoo]) (.long "--foo" (some "v")) =
        .error (.subcommandLongFlagValue "--foo" "v") ∧
      (ClapError.subcommandLongFlagValue "--foo" "v").kind =
        .invalidUserInput ∧
      (ClapError.subcommandLongFlagValue "--foo" "v").reason =
        .subcommandLongFlagValue) ∧
    ∃ sub, sub ∈ (plainCmd "root" [exLongFoo]).subcommands ∧
      subLongMatch sub "--foo" = true ∧
      matchSubcommand (plainCmd "root" [exLongFoo]) (.long "--foo" none) =
        .ok ⟨some sub, none⟩ :=
  ⟨subcommand_long_flag_value.1 (plainCmd "root" [exLongFoo]) "--foo" "v"
      ⟨exLongFoo, List.mem_singleton.mpr rfl, rfl⟩,
   subcommand_long_flag_value.2 (plainCmd "root" [exLongFoo]) "--foo"
      ⟨exLongFoo, List.mem_singleton.mpr rfl, rfl⟩⟩

theorem matchSubcommandLoop_error_shape (arg : ParsedArgument)
    (e : ClapError) :
    ∀ subs : List Cmd, matchSubcommandLoop arg subs = .error e →
      ∃ name v, arg = .long name (some v) ∧
        e = .subcommandLongFlagValue name v := by
  intro subs
  induction subs with
  | nil => intro h; exact absurd h (by simp [matchSubcommandLoop])
  | cons sub rest ih =>
    intro h
    cases arg with
    | text t =>
      by_cases hm : subTextMatch sub t = true
      · simp [matchSubcommandLoop, hm] at h
      · simp only [matchSubcommandLoop, if_neg hm] at h
        exact ih h
    | long name inline =>
      by_cases hm : subLongMatch sub name = true
      · cases inline with
        | some v =>
          simp only [matchSubcommandLoop, if_pos hm, Except.error.injEq] at h
          exact ⟨name, v, rfl, h.symm⟩
        | none => simp [matchSubcommandLoop, hm] at h
      · simp only [matchSubcommandLoop, if_neg hm] at h
        exact ih h
    | short s =>
      by_cases hm : subShortMatch sub s = true
      · by_cases hl : s.length = 2
        · simp [matchSubcommandLoop, hm, hl] at h
        · simp [matchSubcommandLoop, hm, hl] at h
      · simp only [matchSubcommandLoop, if_neg hm] at h
        exact ih h
    | endOfOptions =>
      simp only [matchSubcommandLoop] at h
      exact ih h

theorem matchSubcommand_error_shape (cmd : Cmd) (arg : ParsedArgument)
    (e : ClapError) (h : matchSubcommand cmd arg = .error e) :
    ∃ name v, arg = .long name (some v) ∧
      e = .subcommandLongFlagValue name v := by
  unfold matchSubcommand at h
  cases hl : matchSubcommandLoop arg cmd.subcommands with
  | error e' =>
    rw [hl] at h
    cases h
    exact matchSubcommandLoop_error_shape arg e cmd.subcommands hl
  | ok r =>
    rw [hl] at h
    cases r with
    | some m => cases h
    | none =>
      cases hf : cmd.subcommands.find? (fun s => s.fields.isDefault) with
      | some sub => rw [hf] at h; cases h
      | none => rw [hf] at h; cases h

/-- C2 (amended): `handle` never invokes any action callback (its
success value records no invocation); an empty parsed sequence returns
normally; a non-empty sequence always fails on the first loop
iteration, with the matcher's `SubcommandLongFlagValue` error when the
first token is a matching long flag carrying an inline value, and with
a `ClapUnreachableError` (kind library-bug) otherwise, the match result
being discarded either way. -/
theorem handle_never_invokes :
    (∀ cmd : Cmd, handle cmd [] = .ok []) ∧
    (∀ (cmd : Cmd) (arg : ParsedArgument) (rest : List ParsedArgument),
      handle cmd (arg :: rest) =
        match matchSubcommand cmd arg with
        | .error e => .error e
        | .ok _ => .error (.unreachable
            ("Unexpected type of argument: " ++ jsonOfArg arg))) ∧
    (∀ (cmd : Cmd) (arg : ParsedArgument) (e : ClapError),
      matchSubcommand cmd arg = .error e →
      ∃ name v, arg = .long name (some v) ∧
        e = .subcommandLongFlagValue name v) ∧
    (∀ (cmd : Cmd) (args : List ParsedArgument) (acts : List String),
      handle cmd args = .ok acts → acts = []) ∧
    (∀ msg, (ClapError.unreachable msg).kind = .libraryBug) := by
  have hstep : ∀ (cmd : Cmd) (arg : ParsedArgument)
      (rest : List ParsedArgument),
      handle cmd (arg :: rest) =
        match matchSubcommand cmd arg with
        | .error e => .error e
        | .ok _ => .error (.unreachable
            ("Unexpected type of argument: " ++ jsonOfArg arg)) := by
    intro cmd arg rest
    cases hm : matchSubcommand cmd arg with
    | error e => simp [handle, handleGo, hm, Bind.bind, Except.bind]
    | ok r => simp [handle, handleGo, hm, Bind.bind, Except.bind]
  refine ⟨fun _ => rfl, hstep, fun cmd arg e h =>
    matchSubcommand_error_shape cmd arg e h, ?_, fun _ => rfl⟩
  intro cmd args acts h
  cases args with
  | nil => exact (Except.ok.inj h).symm
  | cons arg rest =>
    rw [hstep cmd arg rest] at h
    cases hm : matchSubcommand cmd arg with
    | error e => rw [hm] at h; cases h
    | ok r => rw [hm] at h; cases h

/-- Witness for C2: the hypothesis-bearing parts instantiated — the
error-shape fact at the concrete matcher error on `--foo=v`, and the
no-invocation fact at the empty argument list. -/
theorem handle_never_invokes_witness :
    (∃ name v,
      ParsedArgument.long "--foo" (some "v") =
        ParsedArgument.long name (some v) ∧
      ClapError.subcommandLongFlagValue "--foo" "v" =
        .subcommandLongFlagValue name v) ∧
    ([] : List String) = [] :=
  ⟨handle_never_invokes.2.2.1 (plainCmd "root" [exLongFoo])
      (.long "--foo" (some "v")) (.subcommandLongFlagValue "--foo" "v") rfl,
   handle_never_invokes.2.2.2.1 (plainCmd "root" [exLongFoo]) [] [] rfl⟩

/-- C2 counterexample: a validated tree whose subcommand has
`longFlag: "foo"`, handled on the single token `--foo=v`: the first
iteration throws the matcher's `ClapSubcommandLongFlagValueError`
(kind invalid-user-input), not a `ClapUnreachableError`. -/
theorem handle_unreachable_counterexample :
    validateCommandOptions (plainCmd "root" [exLongFoo]) = .ok () ∧
    handle (plainCmd "root" [exLongFoo]) [.long "--foo" (some "v")] =
      .error (.subcommandLongFlagValue "--foo" "v") ∧
    (ClapError.subcommandLongFlagValue "--foo" "v").kind ≠ .libraryBug :=
  ⟨rfl, rfl, by decide⟩

/-- C1 (what the code does at the claim's inputs): a validated root
command with an action, handled on the empty sequence, returns normally
with no action invoked; a validated root with `subcommandRequired:
true`, handled on the empty sequence, also returns normally instead of
failing with an invalid-user-input error. -/
theorem handle_terminal_code_behavior :
    validateCommandOptions actionRoot = .ok () ∧
    (Cmd.fields actionRoot).hasAction = true ∧
    handle actionRoot [] = .ok [] ∧
    validateCommandOptions reqRoot = .ok () ∧
    (Cmd.fields reqRoot).subcommandRequired = true ∧
    handle reqRoot [] = .ok [] :=
  ⟨rfl, rfl, rfl, rfl, rfl, rfl⟩

/-- C6 (what the code does): `matchSubcommand` itself consumes a whole
two-character bundle, and for a longer bundle returns the selected sub
together with the synthesized remainder bundle; but `handle` discards
the returned match and throws `ClapUnreachableError`, so no subcommand
is ever selected and the remainder is never re-injected. -/
theorem bundle_split_code_behavior :
    matchSubcommand (plainCmd "root" [exShortA]) (.short "-ab") =
      .ok ⟨some exShortA, some (.short "-b")⟩ ∧
    matchSubcommand (plainCmd "root" [exShortA]) (.short "-a") =
      .ok ⟨some exShortA, none⟩ ∧
    matchSubcommand exShortA (.short "-b") = .ok ⟨some exShortB, none⟩ ∧
    handle (plainCmd "root" [exShortA]) [.short "-ab"] =
      .error (.unreachable
        "Unexpected type of argument: \x7b\"short\":\"-ab\"\x7d") :=
  ⟨rfl, rfl, rfl, rfl⟩

/-!  Helper lemmas about the validator. -/

theorem clapBind_ok {α : Type} {x : Except ClapError α}
    {g : α → Except ClapError Unit} (h : (x >>= g) = Except.ok ()) :
    ∃ a, x = .ok a ∧ g a = .ok () := by
  cases x with
  | error e =>
    rw [show ((Except.error e : Except ClapError α) >>= g) =
      Except.error e from rfl] at h
    cases h
  | ok a =>
    refine ⟨a, rfl, ?_⟩
    rwa [show ((Except.ok a : Except ClapError α) >>= g) = g a from rfl] at h

theorem clapBind_error {α : Type} {x : Except ClapError α}
    {g : α → Except ClapError Unit} {e : ClapError}
    (h : (x >>= g) = Except.error e) :
    x = .error e ∨ ∃ a, x = .ok a ∧ g a = .error e := by
  cases x with
  | error e' =>
    rw [show ((Except.error e' : Except ClapError α) >>= g) =
      (Except.error e' : Except ClapError Unit) from rfl] at h
    cases h
    exact .inl rfl
  | ok a =>
    refine .inr ⟨a, rfl, ?_⟩
    rwa [show ((Except.ok a : Except ClapError α) >>= g) = g a from rfl] at h

theorem validateSubcommandRequired_error {f : CmdFields} {subs : List Cmd}
    {e : ClapError} (h : validateSubcommandRequired f subs = .error e) :
    ∃ m, e = .configuration m := by
  unfold validateSubcommandRequired at h
  split at h
  · exact ⟨_, (Except.error.inj h).symm⟩
  · cases h

theorem validateMultipleDefault_error {f : CmdFields} {subs : List Cmd}
    {e : ClapError} (h : validateMultipleDefault f subs = .error e) :
    ∃ m, e = .configuration m := by
  unfold validateMultipleDefault at h
  split at h
  · exact ⟨_, (Except.error.inj h).symm⟩
  · cases h

theorem validateDisallowWithoutFlag_error {f : CmdFields} {e : ClapError}
    (h : validateDisallowWithoutFlag f = .error e) :
    ∃ m, e = .configuration m := by
  unfold validateDisallowWithoutFlag at h
  split at h
  · exact ⟨_, (Except.error.inj h).symm⟩
  · cases h

theorem validateShortFlagSingleChar_error {name : String}
    {sf : Option String} {e : ClapError}
    (h : validateShortFlagSingleChar name sf = .error e) :
    ∃ m, e = .configuration m := by
  unfold validateShortFlagSingleChar at h
  split at h
  · split at h
    · exact ⟨_, (Except.error.inj h).symm⟩
    · cases h
  · cases h

theorem validateShortFlagAliasesSingleChar_error {name : String} :
    ∀ {aliases : List String} {e : ClapError},
      validateShortFlagAliasesSingleChar name aliases = .error e →
      ∃ m, e = .configuration m := by
  intro aliases
  induction aliases with
  | nil => intro e h; cases h
  | cons s rest ih =>
    intro e h
    unfold validateShortFlagAliasesSingleChar at h
    rcases clapBind_error h with h1 | ⟨a, _, h1⟩
    · exact validateShortFlagSingleChar_error h1
    · exact ih h1

theorem validateFlagAliasesWithoutFlag_error {name : String}
    {aliases : List String} {flag : Option String} {kindWord : String}
    {e : ClapError}
    (h : validateFlagAliasesWithoutFlag name aliases flag kindWord =
      .error e) :
    ∃ m, e = .configuration m := by
  unfold validateFlagAliasesWithoutFlag at h
  split at h
  · exact ⟨_, (Except.error.inj h).symm⟩
  · cases h

theorem validateSubcommandChecks_error {s : Cmd} {e : ClapError}
    (h : validateSubcommandChecks s = .error e) :
    ∃ m, e = .configuration m := by
  unfold validateSubcommandChecks at h
  rcases clapBind_error h with h1 | ⟨_, _, h1⟩
  · exact validateDisallowWithoutFlag_error h1
  rcases clapBind_error h1 with h2 | ⟨_, _, h2⟩
  · exact validateShortFlagSingleChar_error h2
  rcases clapBind_error h2 with h3 | ⟨_, _, h3⟩
  · exact validateShortFlagAliasesSingleChar_error h3
  rcases clapBind_error h3 with h4 | ⟨_, _, h4⟩
  · exact validateFlagAliasesWithoutFlag_error h4
  · exact validateFlagAliasesWithoutFlag_error h4

theorem validateSubcommands_error_config :
    ∀ (subs : List Cmd) {e : ClapError},
      validateSubcommands subs = .error e → ∃ m, e = .configuration m
  | [], e, h => by cases h
  | .mk f ssubs :: rest, e, h => by
    unfold validateSubcommands at h
    rcases clapBind_error h with h1 | ⟨_, _, h1⟩
    · unfold validateCommandDefinition at h1
      rcases clapBind_error h1 with h2 | ⟨_, _, h2⟩
      · exact validateSubcommandRequired_error h2
      rcases clapBind_error h2 with h3 | ⟨_, _, h3⟩
      · exact validateMultipleDefault_error h3
      · exact validateSubcommands_error_config ssubs h3
    rcases clapBind_error h1 with h2 | ⟨_, _, h2⟩
    · exact validateSubcommandChecks_error h2
    · exact validateSubcommands_error_config rest h2

theorem validateCommandOptions_error_config {c : Cmd} {e : ClapError}
    (h : validateCommandOptions c = .error e) :
    ∃ m, e = .configuration m := by
  cases c with
  | mk f subs =>
    unfold validateCommandOptions validateCommandDefinition at h
    rcases clapBind_error h with h1 | ⟨_, _, h1⟩
    · exact validateSubcommandRequired_error h1
    rcases clapBind_error h1 with h2 | ⟨_, _, h2⟩
    · exact validateMultipleDefault_error h2
    · exact validateSubcommands_error_config subs h2

theorem validateCommandDefinition_ok_parts {f : CmdFields} {subs : List Cmd}
    (h : validateCommandDefinition (.mk f subs) = .ok ()) :
    validateSubcommandRequired f subs = .ok () ∧
    validateMultipleDefault f subs = .ok () ∧
    validateSubcommands subs = .ok () := by
  unfold validateCommandDefinition at h
  rcases clapBind_ok h with ⟨a, h1, h2⟩
  rcases clapBind_ok h2 with ⟨b, h3, h4⟩
  exact ⟨h1, h3, h4⟩

theorem validateSubcommands_cons_ok {s : Cmd} {rest : List Cmd}
    (h : validateSubcommands (s :: rest) = .ok ()) :
    validateCommandDefinition s = .ok () ∧
    validateSubcommandChecks s = .ok () ∧
    validateSubcommands rest = .ok () := by
  unfold validateSubcommands at h
  rcases clapBind_ok h with ⟨a, h1, h2⟩
  rcases clapBind_ok h2 with ⟨b, h3, h4⟩
  exact ⟨h1, h3, h4⟩

theorem validateMultipleDefault_ok {f : CmdFields} {subs : List Cmd}
    (h : validateMultipleDefault f subs = .ok ()) :
    (defaultNames subs).length ≤ 1 := by
  unfold validateMultipleDefault at h
  by_cases hl : (defaultNames subs).length > 1
  · rw [if_pos hl] at h; cases h
  · omega

theorem validateShortFlagSingleChar_ok {name : String} {sf : String}
    (h : validateShortFlagSingleChar name (some sf) = .ok ()) :
    (sf == "" || sf.length == 1) = true := by
  simp only [validateShortFlagSingleChar] at h
  split at h
  · cases h
  · rename_i hcond
    simp only [Bool.and_eq_true, ne_eq, decide_not, Bool.not_eq_true',
      decide_eq_false_iff_not, Decidable.not_not, not_and_or] at hcond
    simp only [Bool.or_eq_true, beq_iff_eq]
    rcases hcond with hc | hc
    · exact .inl hc
    · exact .inr (by omega)

theorem validateShortFlagAliasesSingleChar_ok {name : String} :
    ∀ {aliases : List String},
      validateShortFlagAliasesSingleChar name aliases = .ok () →
      aliases.all (fun s => s == "" || s.length == 1) = true := by
  intro aliases
  induction aliases with
  | nil => intro _; rfl
  | cons s rest ih =>
    intro h
    unfold validateShortFlagAliasesSingleChar at h
    rcases clapBind_ok h with ⟨a, h1, h2⟩
    rw [List.all_cons, validateShortFlagSingleChar_ok h1, ih h2]
    rfl

theorem validateSubcommandChecks_ok_parts {s : Cmd}
    (h : validateSubcommandChecks s = .ok ()) :
    validateShortFlagSingleChar s.fields.name s.fields.shortFlag = .ok () ∧
    validateShortFlagAliasesSingleChar s.fields.name
      s.fields.shortFlagAliases = .ok () := by
  unfold validateSubcommandChecks at h
  rcases clapBind_ok h with ⟨_, _, h1⟩
  rcases clapBind_ok h1 with ⟨_, h2, h3⟩
  rcases clapBind_ok h3 with ⟨_, h4, _⟩
  exact ⟨h2, h4⟩

theorem validateSubcommands_ok_noMulti :
    ∀ subs : List Cmd, validateSubcommands subs = .ok () →
      noMultiDefaultList subs = true
  | [], _ => rfl
  | .mk f ssubs :: rest, h => by
    rcases validateSubcommands_cons_ok h with ⟨h1, _, h3⟩
    rcases validateCommandDefinition_ok_parts h1 with ⟨_, hmd, hss⟩
    have hlen : (defaultNames ssubs).length ≤ 1 :=
      validateMultipleDefault_ok hmd
    show ((decide ((defaultNames ssubs).length ≤ 1) &&
        noMultiDefaultList ssubs) && noMultiDefaultList rest) = true
    rw [decide_eq_true hlen, validateSubcommands_ok_noMulti ssubs hss,
      validateSubcommands_ok_noMulti rest h3]
    rfl

theorem validateSubcommands_ok_goodShort :
    ∀ subs : List Cmd, validateSubcommands subs = .ok () →
      goodShortFlagsList subs = true
  | [], _ => rfl
  | .mk f ssubs :: rest, h => by
    rcases validateSubcommands_cons_ok h with ⟨h1, h2, h3⟩
    rcases validateCommandDefinition_ok_parts h1 with ⟨_, _, hss⟩
    rcases validateSubcommandChecks_ok_parts h2 with ⟨hsf, hsfa⟩
    simp only [Cmd.fields] at hsf hsfa
    have hfield : goodShortFields f = true := by
      cases hflag : f.shortFlag with
      | none =>
        simp [goodShortFields, hflag,
          validateShortFlagAliasesSingleChar_ok hsfa]
      | some sf =>
        rw [hflag] at hsf
        simp [goodShortFields, hflag,
          validateShortFlagAliasesSingleChar_ok hsfa,
          validateShortFlagSingleChar_ok hsf]
    show ((goodShortFields f && goodShortFlagsList ssubs) &&
      goodShortFlagsList rest) = true
    rw [hfield, validateSubcommands_ok_goodShort ssubs hss,
      validateSubcommands_ok_goodShort rest h3]
    rfl

/-- C8 (amended): a tree in which some command has two or more default
direct subcommands never validates successfully; every validation
failure is a configuration error of kind developer-induced, raised by
construction before any resolution and independently of the input
arguments; and when the violating command is the root itself, the error
is exactly the multiple-default error naming it and its default
subcommands. -/
theorem multiple_default_validation :
    (∀ cmd : Cmd, validateCommandOptions cmd = .ok () →
      noMultiDefault cmd = true) ∧
    (∀ (cmd : Cmd) (e : ClapError), validateCommandOptions cmd = .error e →
      (∃ m, e = .configuration m) ∧ e.kind = .developerInduced) ∧
    (∀ (f : CmdFields) (subs : List Cmd), 1 < (defaultNames subs).length →
      validateCommandOptions (.mk f subs) =
        .error (.configuration
          (configMsgMultipleDefault f.name (defaultNames subs)))) := by
  refine ⟨?_, ?_, ?_⟩
  · rintro ⟨f, subs⟩ h
    rcases validateCommandDefinition_ok_parts h with ⟨_, hmd, hsubs⟩
    show (decide ((defaultNames subs).length ≤ 1) &&
      noMultiDefaultList subs) = true
    rw [decide_eq_true (validateMultipleDefault_ok hmd),
      validateSubcommands_ok_noMulti subs hsubs]
    rfl
  · intro cmd e h
    rcases validateCommandOptions_error_config h with ⟨m, hm⟩
    exact ⟨⟨m, hm⟩, by rw [hm]; rfl⟩
  · intro f subs h
    have hsub : subs.isEmpty = false := by
      cases subs with
      | nil => simp [defaultNames] at h
      | cons a l => rfl
    have h1 : validateSubcommandRequired f subs = .ok () := by
      unfold validateSubcommandRequired
      rw [hsub, Bool.and_false]
      rfl
    have h2 : validateMultipleDefault f subs =
        .error (.configuration
          (configMsgMultipleDefault f.name (defaultNames subs))) := by
      unfold validateMultipleDefault
      rw [if_pos h]
    show validateCommandDefinition (.mk f subs) = _
    unfold validateCommandDefinition
    rw [h1, h2]
    rfl

/-- Witness for C8: each hypothesis-bearing part instantiated — a valid
tree has no multiple defaults; a concrete failing validation yields the
configuration kind; a root with two default subcommands yields exactly
the multiple-default error. -/
theorem multiple_default_validation_witness :
    noMultiDefault (plainCmd "root" [plainCmd "s" []]) = true ∧
    ((∃ m, ClapError.configuration
        (configMsgMultipleDefault "root" ["d1", "d2"]) = .configuration m) ∧
      (ClapError.configuration
        (configMsgMultipleDefault "root" ["d1", "d2"])).kind =
          .developerInduced) ∧
    validateCommandOptions twoDefaultRoot =
      .error (.configuration
        (configMsgMultipleDefault "root" ["d1", "d2"])) :=
  ⟨multiple_default_validation.1 (plainCmd "root" [plainCmd "s" []]) rfl,
   multiple_default_validation.2.1 twoDefaultRoot
     (.configuration (configMsgMultipleDefault "root" ["d1", "d2"])) rfl,
   multiple_default_validation.2.2
     ⟨"root", false, false, false, [], none, [], none, [], false⟩
     [defaultSub "d1", defaultSub "d2"] (by decide)⟩

/-- C8 counterexample: `c8tree` contains a command (`x`) with two
default subcommands, yet validation reports the disallow-without-flag
error of the earlier sibling `y`, not a multiple-default error naming
`x` — the claim's "error naming the command and the default
subcommands" fails. -/
theorem multiple_default_counterexample :
    noMultiDefault c8tree = false ∧
    validateCommandOptions c8tree =
      .error (.configuration (configMsgDisallowWithoutFlag "y")) ∧
    configMsgDisallowWithoutFlag "y" ≠
      configMsgMultipleDefault "x" ["d1", "d2"] :=
  ⟨rfl, rfl, by decide⟩

/-- C9 (amended): every successfully validated tree has, in each of its
subcommands at any depth, only single-character nonempty `shortFlag`s
and `shortFlagAliases` entries (so a violating nonempty flag makes
validation fail); the single-char check itself raises a configuration
error naming the subcommand and the offending flag; and every
validation failure is developer-induced.  Empty-string short flags and
aliases are skipped by the runtime check (they are falsy), and with
several violations an earlier one in the walk may be reported instead. -/
theorem short_flag_single_char_validation :
    (∀ cmd : Cmd, validateCommandOptions cmd = .ok () →
      goodShortFlagsList cmd.subcommands = true) ∧
    (∀ name flag : String, flag ≠ "" → flag.length ≠ 1 →
      validateShortFlagSingleChar name (some flag) =
        .error (.configuration (configMsgShortFlagSingleChar name flag))) ∧
    (∀ (cmd : Cmd) (e : ClapError), validateCommandOptions cmd = .error e →
      e.kind = .developerInduced) := by
  refine ⟨?_, ?_, ?_⟩
  · rintro ⟨f, subs⟩ h
    rcases validateCommandDefinition_ok_parts h with ⟨_, _, hsubs⟩
    exact validateSubcommands_ok_goodShort subs hsubs
  · intro name flag hne hlen
    show (if (decide ¬flag = "" && decide ¬flag.length = 1) = true then
        (Except.error (ClapError.configuration
          (configMsgShortFlagSingleChar name flag)) :
            Except ClapError Unit)
      else .ok ()) = _
    rw [if_pos (by simp [hne, hlen])]
  · intro cmd e h
    rcases validateCommandOptions_error_config h with ⟨m, hm⟩
    rw [hm]
    rfl

/-- Witness for C9: the parts instantiated — a validated tree's
subcommands all pass the single-char condition; the check on the
two-character flag `xy` yields the naming error; and the resulting
validation failure is developer-induced. -/
theorem short_flag_single_char_validation_witness :
    goodShortFlagsList (Cmd.subcommands (plainCmd "root" [exLongFoo])) =
      true ∧
    validateShortFlagSingleChar "s" (some "xy") =
      .error (.configuration (configMsgShortFlagSingleChar "s" "xy")) ∧
    (ClapError.configuration
      (configMsgShortFlagSingleChar "s" "xy")).kind = .developerInduced :=
  ⟨short_flag_single_char_validation.1 (plainCmd "root" [exLongFoo]) rfl,
   short_flag_single_char_validation.2.1 "s" "xy" (by decide) (by decide),
   short_flag_single_char_validation.2.2 badShortTree
     (.configuration (configMsgShortFlagSingleChar "s" "xy")) rfl⟩

/-- C9 counterexample: a subcommand with `shortFlag: ""` (set, and not
one character long) and one with an empty-string alias both pass
validation — the runtime check skips falsy flags, so no error is
raised, contrary to the claim. -/
theorem short_flag_single_char_counterexample :
    (Cmd.fields emptyShortSub).shortFlag = some "" ∧
    ("" : String).length ≠ 1 ∧
    validateCommandOptions c9tree = .ok () ∧
    (Cmd.fields emptyAliasSub).shortFlagAliases = [""] ∧
    validateCommandOptions c9treeB = .ok () :=
  ⟨rfl, by decide, rfl, rfl, rfl⟩

end Clap
